import Mathlib

/-!
Verification of the WhisperType capture → segmentation → transcription
pipeline (`src/main.go`) against its natural-language specification.

The Go source is shallowly embedded:

* 16-bit PCM samples are `Int` values in `[-32768, 32767]`; where the Go
  code can overflow an `int16` (negating `-32768`) the wrap-around is
  modelled explicitly.
* Go's `int64` arithmetic in `isSilent` cannot overflow on any realistic
  frame (each summand has magnitude at most `32768`), so sums are plain
  `Int`s; the division is `Int.tdiv`, which truncates toward zero exactly
  like Go's integer division.  A Go runtime panic (division by zero on an
  empty frame) is modelled as `none`.
* Byte buffers are `List Nat` with every element `< 256`.
* Wall-clock instants are `Nat` milliseconds; Go's zero `time.Time`
  (`IsZero`) is the value `0`, matching `silenceStart` handling in `run`.
* The transcription backend, an external HTTP collaborator, is an oracle
  `List Nat → Except String String` mapping the posted WAV bytes to either
  the decoded `text` field of a 200 response or an error (non-success
  status / network / decode failure / timeout).
* The segmentation loop of `run` is a step function over an explicit
  state; calls to `transcribeChunk` and `keyboard.typeText` are recorded
  in ghost log fields (`submitted`, `injected`, `flushedOk`) so that the
  flushing and forwarding behaviour can be stated.
-/

/-! ## Audio configuration constants (`main.go` lines 28-34, 55-59) -/

/-- Samples per second, `sampleRate` in `main.go`. -/
def sampleRate : Nat := 16000

/-- Channel count, `channels` in `main.go`. -/
def channels : Nat := 1

/-- Energy threshold for silence detection, `energyThreshold` in `main.go`. -/
def energyThreshold : Int := 80

/-- The silence-run duration that triggers a flush, `silenceDuration`
(300ms) in `main.go`, expressed in milliseconds. -/
def silenceDurationMs : Nat := 300

/-- Window size of the chunking splitter:
`int(minChunkDuration.Seconds() * float64(sampleRate))` = `int(1.0 * 16000.0)`,
which the Go float arithmetic evaluates exactly to 16000. -/
def samplesPerChunk : Nat := 16000

/-- Overlap of the chunking splitter:
`int(chunkOverlap.Seconds() * float64(sampleRate))` = `int(0.5 * 16000.0)`,
which the Go float arithmetic evaluates exactly to 8000. -/
def overlapSamples : Nat := 8000

/-! ## Silence classification (`isSilent`, `main.go` lines 425-437) -/

/-- Two's-complement wrap-around of 16-bit negation, as in the Go statement
`sample = -sample` on an `int16`: negating the minimum value `-32768`
overflows and yields `-32768` again. -/
def int16Neg (x : Int) : Int := if x = -32768 then -32768 else -x

/-- Absolute value as computed by the loop body of `isSilent`
(`if sample < 0 { sample = -sample }`), including the 16-bit overflow on
`-32768`. -/
def goAbs (x : Int) : Int := if x < 0 then int16Neg x else x

/-- `isSilent(data, threshold)` from `main.go`: sums `goAbs` over the frame,
divides by the frame length (`avg := sum / int64(len(data))`, truncating
division) and compares `avg < int64(threshold)`.  On an empty frame the Go
code divides by zero and panics at runtime; this is modelled as `none`.
There is no zero-length guard in the source. -/
def isSilent (data : List Int) (threshold : Int) : Option Bool :=
  if data.length = 0 then none
  else some (Int.tdiv ((data.map goAbs).sum) (data.length : Int) < threshold)

/-! ## The bounded frame queue (`readNextChunk`, `main.go` lines 351-358) -/

/-- `AudioChunk` from `main.go`: a block of recorded samples with the
capture timestamp (milliseconds; Go's zero `time.Time` is `0`). -/
structure AudioChunk where
  timestamp : Nat
  data : List Int
deriving Repr, DecidableEq

/-- State of the Go channel `audioChan`: the chunks currently buffered and
whether the producer has closed it. -/
structure AudioChan where
  buffered : List AudioChunk
  closed : Bool
deriving Repr, DecidableEq

/-- `readNextChunk` from `main.go`: a `select` with a `default` branch.
Per Go semantics the receive case is ready when a chunk is buffered, or —
crucially — when the channel is closed, in which case the receive yields
the zero value `AudioChunk{}`; only an open empty channel falls through to
the `default` branch returning `ok = false`.  The function returns the
selected chunk, the `ok` flag, and the channel state after the call. -/
def readNextChunk (c : AudioChan) : (AudioChunk × Bool) × AudioChan :=
  match c.buffered with
  | chunk :: rest => ((chunk, true), { c with buffered := rest })
  | [] =>
    if c.closed then ((⟨0, []⟩, true), c)
    else ((⟨0, []⟩, false), c)

/-! ## Claims C1, C2, C10 -/

/-- C1: the spec claims the energy computation is guarded against
zero-length frames so classification never divides by zero.  The code has
no such guard: on the empty frame `isSilent` evaluates `sum / int64(0)`
and panics (modelled as `none`).  This theorem evaluates the code at the
failing input. -/
theorem isSilent_nil_divides_by_zero : isSilent [] energyThreshold = none := rfl

/-- C2: the spec claims `Silent ⟺ mean(|sample|) < threshold`.  On the
frame `[-32768]` the code's 16-bit negation wraps, the computed average is
`-32768 < 80` and the frame is classified Silent, while the true mean
absolute amplitude is `32768 ≥ 80`, which the claim says must classify
Speech.  This theorem evaluates the code at the failing input. -/
theorem isSilent_wraps_on_int16_min :
    isSilent [(-32768 : Int)] energyThreshold = some true ∧
    ¬ ((([(-32768 : Int)]).map (fun s => |s|)).sum <
        energyThreshold * (([(-32768 : Int)]).length : Int)) := by
  constructor
  · rfl
  · decide

/-- C10: once the producer has closed `audioChan` and the buffer has
drained, every further `readNextChunk` call returns `ok = true` with the
zero-value `AudioChunk` (zero timestamp, empty samples) and leaves the
channel state unchanged — so the consumer sees stream end as an unbounded
run of empty frames, never as the empty-queue idle (`ok = false`) path. -/
theorem readNextChunk_closed_drained (c : AudioChan)
    (hclosed : c.closed = true) (hempty : c.buffered = []) :
    readNextChunk c = ((⟨0, []⟩, true), c) := by
  unfold readNextChunk
  rw [hempty, hclosed]
  simp

/-- Witness for C10 at the concrete drained, closed channel. -/
theorem readNextChunk_closed_drained_witness :
    (AudioChan.mk [] true).closed = true ∧ (AudioChan.mk [] true).buffered = [] ∧
    readNextChunk (AudioChan.mk [] true) = ((⟨0, []⟩, true), AudioChan.mk [] true) :=
  ⟨rfl, rfl, readNextChunk_closed_drained (AudioChan.mk [] true) rfl rfl⟩

/-! ## WAV encoding (`writeWavToBuffer`, `main.go` lines 533-567) -/

/-- Little-endian byte pair of a 16-bit value (`binary.Write` of a
`uint16`). -/
def u16le (v : Nat) : List Nat := [v % 256, v / 256 % 256]

/-- Little-endian byte quadruple of a 32-bit value (`binary.Write` of a
`uint32`); values are reduced modulo `2^32` byte by byte, matching the Go
conversion to `uint32`. -/
def u32le (v : Nat) : List Nat :=
  [v % 256, v / 256 % 256, v / 65536 % 256, v / 16777216 % 256]

/-- The `uint16` bit pattern of an `int16` sample, as written by
`binary.Write(&dataBuf, binary.LittleEndian, sample)`. -/
def int16ToUint16 (s : Int) : Nat := (s % 65536).toNat

/-- The two little-endian bytes one sample contributes to the `data`
subchunk. -/
def sampleBytes (s : Int) : List Nat := u16le (int16ToUint16 s)

/-- `writeWavToBuffer` from `main.go`: the exact byte sequence written to
the buffer — `"RIFF"`, chunk size `36 + dataSize`, `"WAVE"`, the `"fmt "`
subchunk (size 16, PCM format code 1, channel count, sample rate, byte
rate, block align, 16 bits per sample), then `"data"`, `dataSize` and the
little-endian samples, where `dataSize` is the byte length of the encoded
samples. -/
def writeWavToBuffer (samples : List Int) (rate chans : Nat) : List Nat :=
  let dataBytes := (samples.map sampleBytes).flatten
  let dataSize := dataBytes.length
  let byteRate := rate * chans * 2
  let blockAlign := chans * 2
  [82, 73, 70, 70] ++ u32le (36 + dataSize) ++ [87, 65, 86, 69] ++
    [102, 109, 116, 32] ++ u32le 16 ++ u16le 1 ++ u16le chans ++
    u32le rate ++ u32le byteRate ++ u16le blockAlign ++ u16le 16 ++
    [100, 97, 116, 97] ++ u32le dataSize ++ dataBytes

/-- Fields recovered by parsing a canonical 44-byte WAV header plus data. -/
structure WavInfo where
  chunkSize : Nat
  formatCode : Nat
  numChannels : Nat
  rateField : Nat
  byteRateField : Nat
  blockAlignField : Nat
  bitsField : Nat
  dataSize : Nat
  sampleData : List Int
deriving Repr, DecidableEq

/-- Signed 16-bit value of a `uint16` bit pattern. -/
def uint16ToInt16 (u : Nat) : Int :=
  if u < 32768 then (u : Int) else (u : Int) - 65536

/-- Decode consecutive little-endian byte pairs back into 16-bit samples. -/
def decodeSamples : List Nat → List Int
  | b0 :: b1 :: rest => uint16ToInt16 (b0 + 256 * b1) :: decodeSamples rest
  | _ => []

/-- Parse a byte sequence laid out as a canonical 44-byte WAV header
followed by PCM data, reading each field at its standard offset. -/
def parseWav (bs : List Nat) : Option WavInfo :=
  match bs with
  | _r1 :: _r2 :: _r3 :: _r4 :: c0 :: c1 :: c2 :: c3 ::
    _w1 :: _w2 :: _w3 :: _w4 :: _f1 :: _f2 :: _f3 :: _f4 ::
    _s0 :: _s1 :: _s2 :: _s3 :: fc0 :: fc1 :: ch0 :: ch1 ::
    sr0 :: sr1 :: sr2 :: sr3 :: br0 :: br1 :: br2 :: br3 ::
    ba0 :: ba1 :: bp0 :: bp1 :: _d1 :: _d2 :: _d3 :: _d4 ::
    ds0 :: ds1 :: ds2 :: ds3 :: rest =>
    some
      { chunkSize := c0 + 256 * c1 + 65536 * c2 + 16777216 * c3
        formatCode := fc0 + 256 * fc1
        numChannels := ch0 + 256 * ch1
        rateField := sr0 + 256 * sr1 + 65536 * sr2 + 16777216 * sr3
        byteRateField := br0 + 256 * br1 + 65536 * br2 + 16777216 * br3
        blockAlignField := ba0 + 256 * ba1
        bitsField := bp0 + 256 * bp1
        dataSize := ds0 + 256 * ds1 + 65536 * ds2 + 16777216 * ds3
        sampleData := decodeSamples rest }
  | _ => none

/-- Each sample contributes exactly two data bytes. -/
theorem flatten_sampleBytes_length (samples : List Int) :
    ((samples.map sampleBytes).flatten).length = 2 * samples.length := by
  induction samples with
  | nil => simp
  | cons s rest ih =>
    simp [sampleBytes, u16le, ih]
    omega

/-- Decoding inverts encoding on 16-bit samples. -/
theorem decodeSamples_flatten (samples : List Int)
    (h : ∀ s ∈ samples, -32768 ≤ s ∧ s < 32768) :
    decodeSamples ((samples.map sampleBytes).flatten) = samples := by
  induction samples with
  | nil => rfl
  | cons s rest ih =>
    have hs := h s (List.mem_cons_self s rest)
    have hrest : ∀ x ∈ rest, -32768 ≤ x ∧ x < 32768 :=
      fun x hx => h x (List.mem_cons_of_mem s hx)
    have hu : int16ToUint16 s < 65536 := by
      unfold int16ToUint16
      omega
    have hb : sampleBytes s = [int16ToUint16 s % 256, int16ToUint16 s / 256 % 256] := rfl
    simp only [List.map_cons, List.flatten_cons, hb]
    show decodeSamples
        (int16ToUint16 s % 256 :: int16ToUint16 s / 256 % 256 ::
          (rest.map sampleBytes).flatten) = s :: rest
    unfold decodeSamples
    rw [ih hrest]
    have hrecomp : int16ToUint16 s % 256 + 256 * (int16ToUint16 s / 256 % 256)
        = int16ToUint16 s := by omega
    rw [hrecomp]
    have : uint16ToInt16 (int16ToUint16 s) = s := by
      unfold uint16ToInt16 int16ToUint16
      omega
    rw [this]

/-- C7: encoding `N` samples with `writeWavToBuffer` at the configured
`sampleRate` and `channels` yields a 44-byte canonical header followed by
the data, and parsing the output recovers format code 1 (PCM),
`channels = 1`, `bitsPerSample = 16`, the configured sample rate,
`dataSize = 2N`, and the original sample values identically and in order. -/
theorem writeWavToBuffer_roundtrip (samples : List Int)
    (hrange : ∀ s ∈ samples, -32768 ≤ s ∧ s < 32768)
    (hsize : 36 + 2 * samples.length < 4294967296) :
    (writeWavToBuffer samples sampleRate channels).length = 44 + 2 * samples.length ∧
    parseWav (writeWavToBuffer samples sampleRate channels) =
      some ⟨36 + 2 * samples.length, 1, 1, 16000, 32000, 2, 16,
        2 * samples.length, samples⟩ := by
  have hlen := flatten_sampleBytes_length samples
  constructor
  · simp only [writeWavToBuffer, sampleRate, channels, u32le, u16le,
      List.length_append, List.length_cons, List.length_nil, hlen]
  · simp only [writeWavToBuffer, sampleRate, channels, u32le, u16le,
      List.cons_append, List.nil_append, hlen]
    simp only [parseWav, Option.some.injEq, WavInfo.mk.injEq]
    refine ⟨by omega, by norm_num, by norm_num, by norm_num, by norm_num,
      by norm_num, by norm_num, by omega, decodeSamples_flatten samples hrange⟩

/-- Witness for C7 at a concrete five-sample buffer covering both signs and
both 16-bit extremes. -/
theorem writeWavToBuffer_roundtrip_witness :
    (∀ s ∈ [(0 : Int), 1, -1, 32767, -32768], -32768 ≤ s ∧ s < 32768) ∧
    36 + 2 * ([(0 : Int), 1, -1, 32767, -32768]).length < 4294967296 ∧
    ((writeWavToBuffer [(0 : Int), 1, -1, 32767, -32768] sampleRate channels).length
        = 44 + 2 * ([(0 : Int), 1, -1, 32767, -32768]).length ∧
      parseWav (writeWavToBuffer [(0 : Int), 1, -1, 32767, -32768] sampleRate channels) =
        some ⟨36 + 2 * ([(0 : Int), 1, -1, 32767, -32768]).length, 1, 1, 16000, 32000, 2, 16,
          2 * ([(0 : Int), 1, -1, 32767, -32768]).length, [(0 : Int), 1, -1, 32767, -32768]⟩) :=
  ⟨by decide, by decide,
    writeWavToBuffer_roundtrip [(0 : Int), 1, -1, 32767, -32768] (by decide) (by decide)⟩

/-! ## Response normalization and `transcribeChunk`
(`main.go` lines 440-499) -/

/-- Whitespace predicate of Go's `strings.TrimSpace` (`unicode.IsSpace`),
restricted to the Latin-1 range: space, tab, newline, vertical tab, form
feed, carriage return, next line (U+0085) and no-break space (U+00A0). -/
def isGoSpace (c : Char) : Bool :=
  c == ' ' || c == '\t' || c == '\n' || c == Char.ofNat 11 ||
    c == Char.ofNat 12 || c == Char.ofNat 13 || c == Char.ofNat 133 ||
    c == Char.ofNat 160

/-- Go's `strings.TrimSpace`: drop whitespace from both ends. -/
def trimSpace (t : String) : String :=
  ⟨((t.data.dropWhile isGoSpace).reverse.dropWhile isGoSpace).reverse⟩

/-- The response clean-up at the end of `transcribeChunk`:
`text := strings.TrimSpace(result.Text)` followed by the blank-audio
sentinel check — `"[BLANK_AUDIO]"` or `"\n[BLANK_AUDIO]"` becomes the
empty string, anything else is returned trimmed. -/
def cleanText (t : String) : String :=
  let text := trimSpace t
  if text = "[BLANK_AUDIO]" ∨ text = "\n[BLANK_AUDIO]" then "" else text

/-- `transcribeChunk` from `main.go`: encode the samples as WAV bytes with
the configured rate and channel count, submit them to the backend, and on
a successful response return the cleaned `text` field; any backend failure
(non-success status, network error, decode failure, timeout) propagates as
an error.  The multipart framing carries no information relevant to the
spec and is absorbed into the backend oracle. -/
def transcribeChunk (backend : List Nat → Except String String)
    (samples : List Int) : Except String String :=
  match backend (writeWavToBuffer samples sampleRate channels) with
  | Except.error e => Except.error e
  | Except.ok responseText => Except.ok (cleanText responseText)

/-- C6: for every successful backend response whose `text` field trims to
the sentinel `[BLANK_AUDIO]` (with or without a leading line break),
`transcribeChunk` returns a successful empty string, not an error. -/
theorem transcribeChunk_blank_audio (backend : List Nat → Except String String)
    (samples : List Int) (t : String)
    (hresp : backend (writeWavToBuffer samples sampleRate channels) = Except.ok t)
    (hsent : trimSpace t = "[BLANK_AUDIO]" ∨ trimSpace t = "\n[BLANK_AUDIO]") :
    transcribeChunk backend samples = Except.ok "" := by
  unfold transcribeChunk
  rw [hresp]
  simp only [cleanText]
  rw [if_pos hsent]

/-- Witness for C6: a backend replying `"  [BLANK_AUDIO]\n"` on the empty
sample buffer yields a successful empty string. -/
theorem transcribeChunk_blank_audio_witness :
    (fun _ : List Nat => Except.ok (ε := String) "  [BLANK_AUDIO]\n")
        (writeWavToBuffer [] sampleRate channels) = Except.ok "  [BLANK_AUDIO]\n" ∧
    (trimSpace "  [BLANK_AUDIO]\n" = "[BLANK_AUDIO]" ∨
      trimSpace "  [BLANK_AUDIO]\n" = "\n[BLANK_AUDIO]") ∧
    transcribeChunk (fun _ => Except.ok "  [BLANK_AUDIO]\n") [] = Except.ok "" :=
  ⟨rfl, Or.inl (by decide),
    transcribeChunk_blank_audio (fun _ => Except.ok "  [BLANK_AUDIO]\n") [] _
      rfl (Or.inl (by decide))⟩

/-! ## The chunking splitter (`transcribeInChunks`, `main.go` lines 502-530) -/

/-- Start offsets visited by the Go loop
`for start := 0; start < len(samples); start += samplesPerChunk - overlapSamples`.
The fuel argument bounds the iteration count; any fuel of at least `L`
suffices when the stride is positive. -/
def chunkStartsAux (L stride : Nat) : Nat → Nat → List Nat
  | 0, _ => []
  | fuel + 1, start =>
    if start < L then start :: chunkStartsAux L stride fuel (start + stride) else []

/-- All start offsets of the chunking loop over a buffer of length `L`. -/
def chunkStarts (L stride : Nat) : List Nat := chunkStartsAux L stride (L + 1) 0

/-- The sub-windows `samples[start:end]`, `end = min(start+samplesPerChunk, len)`,
visited by the loop of `transcribeInChunks`. -/
def chunkWindows (samples : List Int) : List (List Int) :=
  (chunkStarts samples.length (samplesPerChunk - overlapSamples)).map
    (fun st => (samples.drop st).take samplesPerChunk)

/-- The accumulation loop of `transcribeInChunks`: transcribe each window,
propagate the first error, and append each text followed by a space
(`fullText.WriteString(text); fullText.WriteString(" ")`).  The Go code
wraps a failing window's error with its start offset; that wrapping is not
spec-relevant and is dropped here. -/
def chunksLoop (backend : List Nat → Except String String) :
    List (List Int) → String → Except String String
  | [], acc => Except.ok acc
  | w :: ws, acc =>
    match transcribeChunk backend w with
    | Except.error e => Except.error e
    | Except.ok t => chunksLoop backend ws (acc ++ t ++ " ")

/-- `transcribeInChunks` from `main.go`: buffers no longer than
`samplesPerChunk` are transcribed in a single call; longer buffers are
split into the overlapping windows and the per-window texts accumulated. -/
def transcribeInChunks (backend : List Nat → Except String String)
    (samples : List Int) : Except String String :=
  if samples.length ≤ samplesPerChunk then transcribeChunk backend samples
  else chunksLoop backend (chunkWindows samples) ""

/-- Concatenation in order with a single space appended after every
element — the exact shape the Go accumulation loop produces, trailing
space included. -/
def concatSpaced : List String → String
  | [] => ""
  | t :: ts => t ++ " " ++ concatSpaced ts

/-- The loop start offsets are the multiples of the stride below `L`. -/
theorem chunkStartsAux_eq (L stride : Nat) (hs : 0 < stride) :
    ∀ fuel start, L - start ≤ fuel →
      chunkStartsAux L stride fuel start
        = (List.range ((L - start + stride - 1) / stride)).map
            (fun k => start + k * stride) := by
  intro fuel
  induction fuel with
  | zero =>
    intro start h
    have hc : (L - start + stride - 1) / stride = 0 := by
      have h0 : L - start = 0 := by omega
      rw [h0]
      exact Nat.div_eq_of_lt (by omega)
    rw [hc]
    simp [chunkStartsAux]
  | succ fuel ih =>
    intro start h
    rw [show chunkStartsAux L stride (fuel + 1) start
        = if start < L then start :: chunkStartsAux L stride fuel (start + stride) else []
      from rfl]
    by_cases hlt : start < L
    · rw [if_pos hlt, ih (start + stride) (by omega)]
      have hd : 1 ≤ L - start := by omega
      have hsplit : L - start + stride - 1 = (L - start - 1) + stride := by omega
      rw [hsplit, Nat.add_div_right _ hs, List.range_succ_eq_map, List.map_cons,
        List.map_map]
      have hinner : (L - (start + stride) + stride - 1) / stride
          = (L - start - 1) / stride := by
        by_cases hds : L - start ≤ stride
        · have h1 : L - (start + stride) = 0 := by omega
          rw [h1, Nat.div_eq_of_lt (by omega), Nat.div_eq_of_lt (by omega)]
        · have h1 : L - (start + stride) + stride - 1
              = (L - (start + stride) - 1) + stride := by omega
          have h2 : L - start - 1 = (L - (start + stride) - 1) + stride := by omega
          rw [h1, h2, Nat.add_div_right _ hs]
      rw [hinner]
      congr 1
      · omega
      · apply List.map_congr_left
        intro k _
        simp only [Function.comp_apply, Nat.succ_eq_add_one]
        ring
    · rw [if_neg hlt]
      have hc : (L - start + stride - 1) / stride = 0 := by
        have h0 : L - start = 0 := by omega
        rw [h0]
        exact Nat.div_eq_of_lt (by omega)
      rw [hc]
      simp

/-- Closed form of `chunkStarts`: the loop runs `⌈L / stride⌉` times. -/
theorem chunkStarts_eq (L stride : Nat) (hs : 0 < stride) :
    chunkStarts L stride
      = (List.range ((L + stride - 1) / stride)).map (fun k => k * stride) := by
  unfold chunkStarts
  rw [chunkStartsAux_eq L stride hs (L + 1) 0 (by omega)]
  simp

/-- Closed form of `chunkWindows` at the source constants (stride
`samplesPerChunk - overlapSamples = 8000`). -/
theorem chunkWindows_eq (samples : List Int) :
    chunkWindows samples
      = (List.range ((samples.length + 8000 - 1) / 8000)).map
          (fun k => (samples.drop (k * 8000)).take 16000) := by
  unfold chunkWindows
  rw [show samplesPerChunk - overlapSamples = 8000 from rfl,
    chunkStarts_eq samples.length 8000 (by norm_num), List.map_map]
  rfl

/-- Element lookup under a map over `List.range`. -/
theorem getD_map_range {α : Type} (c k : Nat) (f : Nat → α) (d : α) (hk : k < c) :
    ((List.range c).map f).getD k d = f k := by
  rw [List.getD_eq_getElem?_getD, List.getElem?_map, List.getElem?_range hk]
  rfl


/-- With a backend that always succeeds, the accumulation loop returns the
per-window texts in order, each followed by a single space. -/
theorem chunksLoop_ok (g : List Nat → String) (ws : List (List Int)) :
    ∀ acc, chunksLoop (fun bs => Except.ok (g bs)) ws acc
      = Except.ok (acc ++ concatSpaced (ws.map
          (fun w => cleanText (g (writeWavToBuffer w sampleRate channels))))) := by
  induction ws with
  | nil =>
    intro acc
    simp [chunksLoop, concatSpaced]
  | cons w ws ih =>
    intro acc
    show chunksLoop (fun bs => Except.ok (g bs)) ws
        (acc ++ cleanText (g (writeWavToBuffer w sampleRate channels)) ++ " ")
      = Except.ok (acc ++ concatSpaced ((w :: ws).map
          (fun w => cleanText (g (writeWavToBuffer w sampleRate channels)))))
    rw [ih]
    rw [List.map_cons, concatSpaced, ← String.append_assoc, ← String.append_assoc]

/-- C8 counterexample: at the smallest buffer the chunking path handles
(`L = 16001 > W = 16000`, with `O = 8000` and stride `W − O = 8000`), the
loop visits starts 0, 8000 and 16000 and so produces 3 windows, while the
claimed formula `⌈(L−O)/(W−O)⌉` gives 2; moreover with a backend that
returns `"x"` for every window the result is `"x x x "` — each window's
text is followed by a space, including the last, rather than the texts
being joined by single separating spaces only. -/
theorem transcribeInChunks_claim_counterexample :
    (chunkWindows (List.replicate 16001 (0 : Int))).length = 3 ∧
    ((List.replicate 16001 (0 : Int)).length - overlapSamples +
        (samplesPerChunk - overlapSamples) - 1) / (samplesPerChunk - overlapSamples) = 2 ∧
    transcribeInChunks (fun _ => Except.ok "x") (List.replicate 16001 (0 : Int))
      = Except.ok "x x x " := by
  refine ⟨?_, ?_, ?_⟩
  · rw [chunkWindows_eq]
    rw [List.length_map, List.length_range, List.length_replicate]
  · rw [List.length_replicate]
    rfl
  · show transcribeInChunks (fun bs => Except.ok ((fun _ : List Nat => "x") bs))
        (List.replicate 16001 (0 : Int)) = Except.ok "x x x "
    rw [transcribeInChunks,
      if_neg (by rw [List.length_replicate]; decide)]
    rw [chunksLoop_ok, chunkWindows_eq, List.length_replicate]
    rfl

/-- C8 (amended): for every buffer longer than `samplesPerChunk`, the
splitter produces `⌈L / (W−O)⌉` windows (not `⌈(L−O)/(W−O)⌉`), each window
at most `W` samples; whenever a window is full (its start plus `W` is
within the buffer) it shares exactly its last `O` samples with the first
`O` samples of the next window; and with an always-successful backend the
per-window transcription results are concatenated in order, each followed
by a single space (so the result carries a trailing space). -/
theorem transcribeInChunks_amended (samples : List Int) (g : List Nat → String)
    (hL : samplesPerChunk < samples.length) :
    (chunkWindows samples).length
        = (samples.length + (samplesPerChunk - overlapSamples) - 1) /
            (samplesPerChunk - overlapSamples) ∧
    (∀ w ∈ chunkWindows samples, w.length ≤ samplesPerChunk) ∧
    (∀ k : Nat, k * (samplesPerChunk - overlapSamples) + samplesPerChunk
          ≤ samples.length →
      ((chunkWindows samples).getD k []).drop (samplesPerChunk - overlapSamples)
        = ((chunkWindows samples).getD (k + 1) []).take overlapSamples) ∧
    transcribeInChunks (fun bs => Except.ok (g bs)) samples
      = Except.ok (concatSpaced ((chunkWindows samples).map
          (fun w => cleanText (g (writeWavToBuffer w sampleRate channels))))) := by
  refine ⟨?_, ?_, ?_, ?_⟩
  · rw [chunkWindows_eq, List.length_map, List.length_range]
    norm_num [samplesPerChunk, overlapSamples]
  · intro w hw
    rw [chunkWindows_eq] at hw
    obtain ⟨k, _, hwk⟩ := List.mem_map.mp hw
    subst hwk
    rw [List.length_take]
    exact le_trans (min_le_left _ _) (by rw [samplesPerChunk])
  · intro k hk
    have hk1 : k < (samples.length + 8000 - 1) / 8000 := by
      simp only [samplesPerChunk, overlapSamples] at hk
      omega
    have hk2 : k + 1 < (samples.length + 8000 - 1) / 8000 := by
      simp only [samplesPerChunk, overlapSamples] at hk
      omega
    rw [chunkWindows_eq, getD_map_range _ _ _ _ hk1, getD_map_range _ _ _ _ hk2]
    show ((samples.drop (k * 8000)).take 16000).drop 8000
        = ((samples.drop ((k + 1) * 8000)).take 16000).take 8000
    rw [List.drop_take, List.drop_drop, List.take_take]
    have harith : k * 8000 + 8000 = (k + 1) * 8000 := by ring
    rw [harith]
    norm_num
  · rw [transcribeInChunks, if_neg (by omega)]
    rw [chunksLoop_ok, String.empty_append]

/-- Witness for the amended C8 at the concrete buffer of 16001 zero
samples with a backend returning `"x"` for every window. -/
theorem transcribeInChunks_amended_witness :
    samplesPerChunk < (List.replicate 16001 (0 : Int)).length ∧
    ((chunkWindows (List.replicate 16001 (0 : Int))).length
        = ((List.replicate 16001 (0 : Int)).length + (samplesPerChunk - overlapSamples) - 1) /
            (samplesPerChunk - overlapSamples) ∧
      (∀ w ∈ chunkWindows (List.replicate 16001 (0 : Int)), w.length ≤ samplesPerChunk) ∧
      (∀ k : Nat, k * (samplesPerChunk - overlapSamples) + samplesPerChunk
            ≤ (List.replicate 16001 (0 : Int)).length →
        ((chunkWindows (List.replicate 16001 (0 : Int))).getD k []).drop
            (samplesPerChunk - overlapSamples)
          = ((chunkWindows (List.replicate 16001 (0 : Int))).getD (k + 1) []).take
              overlapSamples) ∧
      transcribeInChunks (fun bs => Except.ok ((fun _ : List Nat => "x") bs))
          (List.replicate 16001 (0 : Int))
        = Except.ok (concatSpaced ((chunkWindows (List.replicate 16001 (0 : Int))).map
            (fun w => cleanText ((fun _ : List Nat => "x")
              (writeWavToBuffer w sampleRate channels)))))) :=
  ⟨by rw [List.length_replicate]; decide,
    transcribeInChunks_amended (List.replicate 16001 (0 : Int)) (fun _ => "x")
      (by rw [List.length_replicate]; decide)⟩

/-! ## The segmentation loop (`run` and `finalizeTranscript`,
`main.go` lines 299-375)

One loop iteration of `run` that actually obtained a chunk is modelled by
`stepFrame`; the chunks consumed before cancellation are processed by
`processFrames`, and the `ctx.Done()` branch dispatches to
`finalizeTranscript`, giving `runSession`.  Iterations whose
`readNextChunk` returned `ok = false` only sleep and are omitted: they do
not touch the state.  The transcription call is abstracted as
`tr : List Int → Except String String`; instantiating
`tr := transcribeChunk backend` recovers the source wiring. -/

/-- The mutable locals of `run` (`phraseBuffer`, `transcriptLines`,
`silenceStart`) plus ghost observation logs: `injected` records every text
passed to `keyboard.typeText`, `submitted` every sample buffer passed to
the transcription call, and `flushedOk` every successful flush as an
input/text pair. -/
structure RunState where
  phraseBuffer : List Int
  transcriptLines : List String
  silenceStart : Nat
  injected : List String
  submitted : List (List Int)
  flushedOk : List (List Int × String)
deriving Repr, DecidableEq

/-- The zero-valued locals at the top of `run`. -/
def initState : RunState := ⟨[], [], 0, [], [], []⟩

/-- How an iteration of `run` can abort: the runtime panic of `isSilent`
on an empty chunk, or a transcription error (which `run` returns,
remembering the submitted buffer and the error message). -/
inductive RunErr where
  | panicDivZero : RunErr
  | transcription : List Int → String → RunErr
deriving Repr, DecidableEq

/-- The silence onset used by the flush test of this iteration: Go first
runs `if silenceStart.IsZero() { silenceStart = chunk.timestamp }` and
then reads `silenceStart`. -/
def ssOf (chunk : AudioChunk) (s : RunState) : Nat :=
  if s.silenceStart = 0 then chunk.timestamp else s.silenceStart

/-- One iteration of the `run` loop on a received chunk.  `nowMs` is the
wall clock at the `time.Since(silenceStart)` test.  A silent chunk updates
the silence onset and, when the buffer is non-empty and the silence run
exceeds `silenceDuration`, flushes: the buffer is transcribed, the text
appended to `transcriptLines`, typed via `keyboard.typeText`, and buffer
and onset cleared; a transcription error aborts the iteration.  A speech
chunk clears the onset and appends the chunk's samples to the buffer. -/
def stepFrame (tr : List Int → Except String String) (nowMs : Nat)
    (chunk : AudioChunk) (s : RunState) : RunState × Option RunErr :=
  match isSilent chunk.data energyThreshold with
  | none => (s, some RunErr.panicDivZero)
  | some true =>
    if 0 < s.phraseBuffer.length ∧ silenceDurationMs < nowMs - ssOf chunk s then
      match tr s.phraseBuffer with
      | Except.error msg =>
        ({ s with silenceStart := ssOf chunk s,
                  submitted := s.submitted ++ [s.phraseBuffer] },
          some (RunErr.transcription s.phraseBuffer msg))
      | Except.ok text =>
        ({ phraseBuffer := []
           transcriptLines := s.transcriptLines ++ [text]
           silenceStart := 0
           injected := s.injected ++ [text]
           submitted := s.submitted ++ [s.phraseBuffer]
           flushedOk := s.flushedOk ++ [(s.phraseBuffer, text)] }, none)
    else ({ s with silenceStart := ssOf chunk s }, none)
  | some false =>
    ({ s with silenceStart := 0, phraseBuffer := s.phraseBuffer ++ chunk.data }, none)

/-- Process the consumed chunks in order, each paired with the wall clock
at its iteration, stopping at the first aborting iteration. -/
def processFrames (tr : List Int → Except String String) :
    List (Nat × AudioChunk) → RunState → RunState × Option RunErr
  | [], s => (s, none)
  | f :: rest, s =>
    match stepFrame tr f.1 f.2 s with
    | (s1, some e) => (s1, some e)
    | (s1, none) => processFrames tr rest s1

/-- `finalizeTranscript` from `main.go`: on cancellation, a non-empty
buffer is transcribed once more (an error aborts, losing the text), the
text appended to the transcript lines and printed — but never passed to
`keyboard.typeText`; an empty buffer does nothing. -/
def finalizeTranscript (tr : List Int → Except String String) (s : RunState) :
    RunState × Option RunErr :=
  if 0 < s.phraseBuffer.length then
    match tr s.phraseBuffer with
    | Except.error msg =>
      ({ s with submitted := s.submitted ++ [s.phraseBuffer] },
        some (RunErr.transcription s.phraseBuffer msg))
    | Except.ok text =>
      ({ s with transcriptLines := s.transcriptLines ++ [text],
                submitted := s.submitted ++ [s.phraseBuffer],
                flushedOk := s.flushedOk ++ [(s.phraseBuffer, text)] }, none)
  else (s, none)

/-- A whole session of `run`: process the chunks consumed before
cancellation from the zero-valued locals; if none aborted, the
`ctx.Done()` branch runs `finalizeTranscript`. -/
def runSession (tr : List Int → Except String String)
    (frames : List (Nat × AudioChunk)) : RunState × Option RunErr :=
  match processFrames tr frames initState with
  | (s, some e) => (s, some e)
  | (s, none) => finalizeTranscript tr s

/-- Unfolding equation of `processFrames` on a consumed chunk. -/
theorem processFrames_cons (tr : List Int → Except String String)
    (f : Nat × AudioChunk) (rest : List (Nat × AudioChunk)) (s : RunState) :
    processFrames tr (f :: rest) s
      = match stepFrame tr f.1 f.2 s with
        | (s1, some e) => (s1, some e)
        | (s1, none) => processFrames tr rest s1 := rfl

/-- A non-aborting iteration continues with the remaining chunks. -/
theorem processFrames_cons_none (tr : List Int → Except String String)
    (f : Nat × AudioChunk) (rest : List (Nat × AudioChunk)) (s s1 : RunState)
    (h : stepFrame tr f.1 f.2 s = (s1, none)) :
    processFrames tr (f :: rest) s = processFrames tr rest s1 := by
  rw [processFrames_cons, h]

/-- An aborting iteration ends processing at once. -/
theorem processFrames_cons_err (tr : List Int → Except String String)
    (f : Nat × AudioChunk) (rest : List (Nat × AudioChunk)) (s s1 : RunState)
    (e : RunErr) (h : stepFrame tr f.1 f.2 s = (s1, some e)) :
    processFrames tr (f :: rest) s = (s1, some e) := by
  rw [processFrames_cons, h]

/-- Exhaustive case analysis of one `run` iteration: panic on an empty
chunk, speech accumulation, silent idling, a successful flush, or a failed
flush. -/
theorem stepFrame_cases (tr : List Int → Except String String) (nowMs : Nat)
    (chunk : AudioChunk) (s : RunState) :
    (isSilent chunk.data energyThreshold = none ∧
      stepFrame tr nowMs chunk s = (s, some RunErr.panicDivZero)) ∨
    (isSilent chunk.data energyThreshold = some false ∧
      stepFrame tr nowMs chunk s
        = ({ s with silenceStart := 0,
                    phraseBuffer := s.phraseBuffer ++ chunk.data }, none)) ∨
    (isSilent chunk.data energyThreshold = some true ∧
      ¬ (0 < s.phraseBuffer.length ∧ silenceDurationMs < nowMs - ssOf chunk s) ∧
      stepFrame tr nowMs chunk s = ({ s with silenceStart := ssOf chunk s }, none)) ∨
    (∃ text, isSilent chunk.data energyThreshold = some true ∧
      0 < s.phraseBuffer.length ∧ silenceDurationMs < nowMs - ssOf chunk s ∧
      tr s.phraseBuffer = Except.ok text ∧
      stepFrame tr nowMs chunk s
        = (⟨[], s.transcriptLines ++ [text], 0, s.injected ++ [text],
            s.submitted ++ [s.phraseBuffer],
            s.flushedOk ++ [(s.phraseBuffer, text)]⟩, none)) ∨
    (∃ msg, isSilent chunk.data energyThreshold = some true ∧
      0 < s.phraseBuffer.length ∧ silenceDurationMs < nowMs - ssOf chunk s ∧
      tr s.phraseBuffer = Except.error msg ∧
      stepFrame tr nowMs chunk s
        = ({ s with silenceStart := ssOf chunk s,
                    submitted := s.submitted ++ [s.phraseBuffer] },
            some (RunErr.transcription s.phraseBuffer msg))) := by
  cases hsil : isSilent chunk.data energyThreshold with
  | none =>
    exact Or.inl ⟨rfl, by rw [stepFrame, hsil]⟩
  | some b =>
    cases b with
    | false =>
      exact Or.inr (Or.inl ⟨rfl, by rw [stepFrame, hsil]⟩)
    | true =>
      by_cases hg : 0 < s.phraseBuffer.length ∧ silenceDurationMs < nowMs - ssOf chunk s
      · cases htr : tr s.phraseBuffer with
        | ok text =>
          refine Or.inr (Or.inr (Or.inr (Or.inl ⟨text, rfl, hg.1, hg.2, rfl, ?_⟩)))
          rw [stepFrame, hsil, if_pos hg, htr]
        | error msg =>
          refine Or.inr (Or.inr (Or.inr (Or.inr ⟨msg, rfl, hg.1, hg.2, rfl, ?_⟩)))
          rw [stepFrame, hsil, if_pos hg, htr]
      · exact Or.inr (Or.inr (Or.inl ⟨rfl, hg, by rw [stepFrame, hsil, if_neg hg]⟩))

/-- Exhaustive case analysis of `finalizeTranscript`: nothing buffered, a
successful final flush, or a failed final flush. -/
theorem finalizeTranscript_cases (tr : List Int → Except String String) (s : RunState) :
    (s.phraseBuffer = [] ∧ finalizeTranscript tr s = (s, none)) ∨
    (∃ text, 0 < s.phraseBuffer.length ∧ tr s.phraseBuffer = Except.ok text ∧
      finalizeTranscript tr s
        = ({ s with transcriptLines := s.transcriptLines ++ [text],
                    submitted := s.submitted ++ [s.phraseBuffer],
                    flushedOk := s.flushedOk ++ [(s.phraseBuffer, text)] }, none)) ∨
    (∃ msg, 0 < s.phraseBuffer.length ∧ tr s.phraseBuffer = Except.error msg ∧
      finalizeTranscript tr s
        = ({ s with submitted := s.submitted ++ [s.phraseBuffer] },
            some (RunErr.transcription s.phraseBuffer msg))) := by
  by_cases hb : 0 < s.phraseBuffer.length
  · cases htr : tr s.phraseBuffer with
    | ok text =>
      exact Or.inr (Or.inl ⟨text, hb, rfl, by rw [finalizeTranscript, if_pos hb, htr]⟩)
    | error msg =>
      exact Or.inr (Or.inr ⟨msg, hb, rfl, by rw [finalizeTranscript, if_pos hb, htr]⟩)
  · have hnil : s.phraseBuffer = [] := by
      cases hpb : s.phraseBuffer with
      | nil => rfl
      | cons a l => exact absurd (by rw [hpb]; simp) hb
    exact Or.inl ⟨hnil, by rw [finalizeTranscript, if_neg hb]⟩

/-- Processing silent chunks from a state with an empty phrase buffer only
moves the silence onset: no flush, no transcript line, no submission. -/
theorem processFrames_silent (tr : List Int → Except String String)
    (frames : List (Nat × AudioChunk)) :
    ∀ s : RunState,
      (∀ f ∈ frames, isSilent (Prod.snd f).data energyThreshold = some true) →
      s.phraseBuffer = [] →
      ∃ ss, processFrames tr frames s = ({ s with silenceStart := ss }, none) := by
  induction frames with
  | nil =>
    intro s _ _
    exact ⟨s.silenceStart, by simp [processFrames]⟩
  | cons f rest ih =>
    intro s hall hbuf
    have hsil := hall f (List.mem_cons_self f rest)
    have hguard : ¬ (0 < s.phraseBuffer.length ∧
        silenceDurationMs < f.1 - ssOf f.2 s) := by
      simp [hbuf]
    have hstep : stepFrame tr f.1 f.2 s
        = ({ s with silenceStart := ssOf f.2 s }, none) := by
      rw [stepFrame, hsil, if_neg hguard]
    rw [processFrames_cons_none tr f rest s _ hstep]
    obtain ⟨ss, hss⟩ := ih { s with silenceStart := ssOf f.2 s }
      (fun g hg => hall g (List.mem_cons_of_mem f hg)) (by simp [hbuf])
    exact ⟨ss, by rw [hss]⟩

/-- C3: a flush (a call of the transcription function from the
segmentation loop) happens only when the phrase buffer is non-empty, the
chunk classified silent, and the silence run longer than
`silenceDuration`; consequently a session seeing only silent chunks from
the initial (empty-buffer) state never flushes and ends with an empty
transcript. -/
theorem run_flush_guard_and_silent_session (tr : List Int → Except String String)
    (frames : List (Nat × AudioChunk))
    (hall : ∀ f ∈ frames, isSilent (Prod.snd f).data energyThreshold = some true) :
    (∀ (nowMs : Nat) (chunk : AudioChunk) (s : RunState),
      (stepFrame tr nowMs chunk s).1.submitted ≠ s.submitted →
      s.phraseBuffer ≠ [] ∧ isSilent chunk.data energyThreshold = some true ∧
        silenceDurationMs < nowMs - ssOf chunk s) ∧
    (processFrames tr frames initState).2 = none ∧
    (processFrames tr frames initState).1.submitted = [] ∧
    (processFrames tr frames initState).1.transcriptLines = [] := by
  refine ⟨?_, ?_⟩
  · intro nowMs chunk s hsub
    rcases stepFrame_cases tr nowMs chunk s with ⟨_, hstep⟩ | ⟨_, hstep⟩ |
      ⟨_, _, hstep⟩ | ⟨text, hsil, hb, hd, _, hstep⟩ | ⟨msg, hsil, hb, hd, _, hstep⟩
    · exact absurd (by rw [hstep]) hsub
    · exact absurd (by rw [hstep]) hsub
    · exact absurd (by rw [hstep]) hsub
    · exact ⟨List.length_pos.mp hb, hsil, hd⟩
    · exact ⟨List.length_pos.mp hb, hsil, hd⟩
  · obtain ⟨ss, hps⟩ := processFrames_silent tr frames initState hall rfl
    rw [hps]
    exact ⟨rfl, rfl, rfl⟩

/-- Witness for C3 over two concrete silent chunks. -/
theorem run_flush_guard_and_silent_session_witness :
    (∀ f ∈ [((100 : Nat), AudioChunk.mk 100 [0]), (1200, AudioChunk.mk 1200 [0, 5])],
        isSilent (Prod.snd f).data energyThreshold = some true) ∧
    ((processFrames (fun _ => Except.ok "t")
          [((100 : Nat), AudioChunk.mk 100 [0]), (1200, AudioChunk.mk 1200 [0, 5])]
          initState).2 = none ∧
      (processFrames (fun _ => Except.ok "t")
          [((100 : Nat), AudioChunk.mk 100 [0]), (1200, AudioChunk.mk 1200 [0, 5])]
          initState).1.submitted = [] ∧
      (processFrames (fun _ => Except.ok "t")
          [((100 : Nat), AudioChunk.mk 100 [0]), (1200, AudioChunk.mk 1200 [0, 5])]
          initState).1.transcriptLines = []) :=
  ⟨by decide,
    (run_flush_guard_and_silent_session (fun _ => Except.ok "t")
      [((100 : Nat), AudioChunk.mk 100 [0]), (1200, AudioChunk.mk 1200 [0, 5])]
      (by decide)).2⟩

/-- C4: on cancellation, a non-empty phrase buffer is submitted exactly
once, with exactly the buffered samples, regardless of the silence state
(which `finalizeTranscript` never consults): the submission log grows by
that single entry and the transcript gains the resulting text (or the
session ends with the transcription error); an empty buffer performs no
flush at all and leaves everything unchanged. -/
theorem finalizeTranscript_final_flush (tr : List Int → Except String String)
    (s : RunState) :
    (s.phraseBuffer ≠ [] →
      (finalizeTranscript tr s).1.submitted = s.submitted ++ [s.phraseBuffer] ∧
      ((∃ msg, tr s.phraseBuffer = Except.error msg ∧
          (finalizeTranscript tr s).2 = some (RunErr.transcription s.phraseBuffer msg)) ∨
        (∃ text, tr s.phraseBuffer = Except.ok text ∧
          (finalizeTranscript tr s).1.transcriptLines = s.transcriptLines ++ [text] ∧
          (finalizeTranscript tr s).2 = none))) ∧
    (s.phraseBuffer = [] → finalizeTranscript tr s = (s, none)) := by
  rcases finalizeTranscript_cases tr s with ⟨hnil, hf⟩ | ⟨text, hb, htr, hf⟩ |
    ⟨msg, hb, htr, hf⟩
  · constructor
    · intro hne
      exact absurd hnil hne
    · intro _
      exact hf
  · constructor
    · intro _
      rw [hf]
      exact ⟨rfl, Or.inr ⟨text, htr, rfl, rfl⟩⟩
    · intro hnil
      rw [hnil] at hb
      simp at hb
  · constructor
    · intro _
      rw [hf]
      exact ⟨rfl, Or.inl ⟨msg, htr, rfl⟩⟩
    · intro hnil
      rw [hnil] at hb
      simp at hb

/-- Witness for C4: both the non-empty-buffer flush and the empty-buffer
no-flush conclusions at concrete states. -/
theorem finalizeTranscript_final_flush_witness :
    (([5] : List Int) ≠ [] ∧
      (finalizeTranscript (fun _ => Except.ok "t")
          { initState with phraseBuffer := [5] }).1.submitted
        = initState.submitted ++ [[5]]) ∧
    (finalizeTranscript (fun _ => Except.ok "t") initState = (initState, none)) :=
  ⟨⟨by decide,
      ((finalizeTranscript_final_flush (fun _ => Except.ok "t")
        { initState with phraseBuffer := [5] }).1 (by decide)).1⟩,
    (finalizeTranscript_final_flush (fun _ => Except.ok "t") initState).2 rfl⟩

/-- Through any run of the segmentation loop, the texts passed to
`keyboard.typeText` coincide with the transcript lines: every mid-session
flush types its text immediately, in flush order. -/
theorem processFrames_injected (tr : List Int → Except String String)
    (frames : List (Nat × AudioChunk)) :
    ∀ s : RunState, s.injected = s.transcriptLines →
      (processFrames tr frames s).1.injected
        = (processFrames tr frames s).1.transcriptLines := by
  induction frames with
  | nil =>
    intro s h
    simpa [processFrames] using h
  | cons f rest ih =>
    intro s h
    rcases stepFrame_cases tr f.1 f.2 s with ⟨_, hstep⟩ | ⟨_, hstep⟩ |
      ⟨_, _, hstep⟩ | ⟨text, _, _, _, _, hstep⟩ | ⟨msg, _, _, _, _, hstep⟩
    · rw [processFrames_cons_err tr f rest s _ _ hstep]
      exact h
    · rw [processFrames_cons_none tr f rest s _ hstep]
      exact ih _ (by simpa using h)
    · rw [processFrames_cons_none tr f rest s _ hstep]
      exact ih _ (by simpa using h)
    · rw [processFrames_cons_none tr f rest s _ hstep]
      exact ih _ (by simp [h])
    · rw [processFrames_cons_err tr f rest s _ _ hstep]
      exact h

/-- C5 counterexample: a session consisting of one speech chunk followed
by cancellation performs its (final) flush — the buffer is submitted and
the text enters the transcript — yet nothing is ever handed to
`keyboard.typeText`: the text-injection log stays empty, so it is not the
case that every flush forwards its text to the sink. -/
theorem run_final_flush_not_injected :
    (runSession (fun _ => Except.ok "hi") [(100, ⟨100, [1000]⟩)]).1.submitted
      = [[1000]] ∧
    (runSession (fun _ => Except.ok "hi") [(100, ⟨100, [1000]⟩)]).1.transcriptLines
      = ["hi"] ∧
    (runSession (fun _ => Except.ok "hi") [(100, ⟨100, [1000]⟩)]).1.injected = [] :=
  ⟨rfl, rfl, rfl⟩

/-- C5 (amended): every mid-session silence-triggered flush forwards its
text to the text-injection sink immediately and in flush order (the
injected texts equal the transcript lines after any prefix of the loop),
but the final flush performed by `finalizeTranscript` at cancellation only
prints: it never adds to the injection log. -/
theorem run_forwarding_mid_session_only (tr : List Int → Except String String)
    (frames : List (Nat × AudioChunk)) :
    (processFrames tr frames initState).1.injected
      = (processFrames tr frames initState).1.transcriptLines ∧
    ∀ s : RunState, (finalizeTranscript tr s).1.injected = s.injected := by
  constructor
  · exact processFrames_injected tr frames initState rfl
  · intro s
    rcases finalizeTranscript_cases tr s with ⟨_, hf⟩ | ⟨text, _, _, hf⟩ |
      ⟨msg, _, _, hf⟩ <;> rw [hf]

/-- The success-log invariant of a run state: the submissions are exactly
the successful flushes' inputs, the transcript lines exactly their texts,
and each recorded flush did succeed under `tr`. -/
def TrGood (tr : List Int → Except String String) (s : RunState) : Prop :=
  s.submitted = s.flushedOk.map Prod.fst ∧
  s.transcriptLines = s.flushedOk.map Prod.snd ∧
  ∀ p ∈ s.flushedOk, tr p.1 = Except.ok p.2

/-- The segmentation loop preserves `TrGood`, and if it aborts with a
transcription error the failing buffer was submitted exactly once, as the
last submission, with nothing processed afterwards. -/
theorem processFrames_TrGood (tr : List Int → Except String String)
    (frames : List (Nat × AudioChunk)) :
    ∀ s : RunState, TrGood tr s →
      ((processFrames tr frames s).2 = none →
        TrGood tr (processFrames tr frames s).1) ∧
      (∀ (inp : List Int) (msg : String),
        (processFrames tr frames s).2 = some (RunErr.transcription inp msg) →
        tr inp = Except.error msg ∧
        (processFrames tr frames s).1.submitted
          = (processFrames tr frames s).1.flushedOk.map Prod.fst ++ [inp] ∧
        (processFrames tr frames s).1.transcriptLines
          = (processFrames tr frames s).1.flushedOk.map Prod.snd ∧
        ∀ p ∈ (processFrames tr frames s).1.flushedOk, tr p.1 = Except.ok p.2) := by
  induction frames with
  | nil =>
    intro s hs
    constructor
    · intro _
      simpa [processFrames] using hs
    · intro inp msg h
      simp [processFrames] at h
  | cons f rest ih =>
    intro s hs
    rcases stepFrame_cases tr f.1 f.2 s with ⟨_, hstep⟩ | ⟨_, hstep⟩ |
      ⟨_, _, hstep⟩ | ⟨text, _, _, _, htr, hstep⟩ | ⟨msg0, _, _, _, htr, hstep⟩
    · rw [processFrames_cons_err tr f rest s _ _ hstep]
      constructor
      · intro h
        simp at h
      · intro inp msg h
        simp at h
    · rw [processFrames_cons_none tr f rest s _ hstep]
      exact ih _ hs
    · rw [processFrames_cons_none tr f rest s _ hstep]
      exact ih _ hs
    · rw [processFrames_cons_none tr f rest s _ hstep]
      refine ih _ ⟨?_, ?_, ?_⟩
      · simp [hs.1]
      · simp [hs.2.1]
      · intro p hp
        rcases List.mem_append.mp hp with hp | hp
        · exact hs.2.2 p hp
        · simp at hp
          rw [hp]
          exact htr
    · rw [processFrames_cons_err tr f rest s _ _ hstep]
      constructor
      · intro h
        simp at h
      · intro inp msg h
        simp only [Option.some.injEq, RunErr.transcription.injEq] at h
        obtain ⟨hinp, hmsg⟩ := h
        refine ⟨?_, ?_, ?_, ?_⟩
        · rw [← hinp, ← hmsg]
          exact htr
        · simp only []
          rw [← hinp, hs.1]
        · exact hs.2.1
        · exact hs.2.2

/-- C9: if the transcription call fails during a flush (mid-session or
final), the session terminates with that error and no retry happens: at
termination the transcript holds exactly the texts of the previously
successful flushes (each verified successful), and the in-flight buffer
appears exactly once, as the very last submission — its audio and text are
never re-submitted and its text never enters the transcript. -/
theorem run_transcription_error_terminal (tr : List Int → Except String String)
    (frames : List (Nat × AudioChunk)) (s1 : RunState) (inp : List Int) (msg : String)
    (h : runSession tr frames = (s1, some (RunErr.transcription inp msg))) :
    tr inp = Except.error msg ∧
    s1.submitted = s1.flushedOk.map Prod.fst ++ [inp] ∧
    s1.transcriptLines = s1.flushedOk.map Prod.snd ∧
    ∀ p ∈ s1.flushedOk, tr p.1 = Except.ok p.2 := by
  have hinit : TrGood tr initState := ⟨rfl, rfl, by intro p hp; simp [initState] at hp⟩
  have hmain := processFrames_TrGood tr frames initState hinit
  rw [runSession] at h
  rcases hpf : processFrames tr frames initState with ⟨sp, op⟩
  rw [hpf] at h hmain
  cases op with
  | some e =>
    have h2 : sp = s1 ∧ some e = some (RunErr.transcription inp msg) := by
      simpa using h
    obtain ⟨rfl, he⟩ := h2
    exact hmain.2 inp msg (by simpa using he)
  | none =>
    have hgood : TrGood tr sp := hmain.1 rfl
    have h2 : finalizeTranscript tr sp = (s1, some (RunErr.transcription inp msg)) := h
    rcases finalizeTranscript_cases tr sp with ⟨_, hf⟩ | ⟨text, _, _, hf⟩ |
      ⟨m, hb, htr, hf⟩
    · rw [hf] at h2
      simp at h2
    · rw [hf] at h2
      simp at h2
    · rw [hf] at h2
      have h3 : sp.phraseBuffer = inp ∧ m = msg ∧
          ({ sp with submitted := sp.submitted ++ [sp.phraseBuffer] } : RunState) = s1 := by
        simp only [Prod.mk.injEq, Option.some.injEq, RunErr.transcription.injEq] at h2
        exact ⟨h2.2.1, h2.2.2, h2.1⟩
      obtain ⟨hinp, hmsg, hstate⟩ := h3
      refine ⟨?_, ?_, ?_, ?_⟩
      · rw [← hinp, ← hmsg]
        exact htr
      · rw [← hstate]
        simp only []
        rw [← hinp, hgood.1]
      · rw [← hstate]
        exact hgood.2.1
      · rw [← hstate]
        exact hgood.2.2

/-- Witness for C9: a backend that always fails, driven by one speech
chunk and one silent chunk whose silence run exceeds the threshold. -/
theorem run_transcription_error_terminal_witness :
    runSession (transcribeChunk (fun _ => Except.error "boom"))
        [(100, ⟨100, [1000]⟩), (600, ⟨200, [0]⟩)]
      = (⟨[1000], [], 200, [], [[1000]], []⟩,
          some (RunErr.transcription [1000] "boom")) ∧
    (transcribeChunk (fun _ => Except.error "boom") [1000] = Except.error "boom" ∧
      (⟨[1000], [], 200, [], [[1000]], []⟩ : RunState).submitted
        = (⟨[1000], [], 200, [], [[1000]], []⟩ : RunState).flushedOk.map Prod.fst
            ++ [[1000]] ∧
      (⟨[1000], [], 200, [], [[1000]], []⟩ : RunState).transcriptLines
        = (⟨[1000], [], 200, [], [[1000]], []⟩ : RunState).flushedOk.map Prod.snd ∧
      ∀ p ∈ (⟨[1000], [], 200, [], [[1000]], []⟩ : RunState).flushedOk,
        transcribeChunk (fun _ => Except.error "boom") p.1 = Except.ok p.2) :=
  ⟨rfl,
    run_transcription_error_terminal (transcribeChunk (fun _ => Except.error "boom"))
      [(100, ⟨100, [1000]⟩), (600, ⟨200, [0]⟩)]
      ⟨[1000], [], 200, [], [[1000]], []⟩ [1000] "boom" rfl⟩
